import Mathlib

/-!
Shallow embedding of the v3io/dockerregistrypusher push engine.

Each definition below translates one function (or one cohesive piece of
state handling) of the Python source into Lean:

* `core/image_manifest_creator.py` → `imageManifestCreate`
* `core/registry.py` → `parseImageTag`, `replaceTag`, `chunkedUpload`
  (the chunked blob-upload state machine), `processLayer` (the per-layer
  HEAD/POST/upload protocol against a conformant Registry v2 server)
* `core/processor.py` → `processorInit`, `processSteps`,
  `preProcessSteps`, `updateManifests`
* `core/extractor.py` → `extractAll`

Python byte strings are `List Nat`, file paths in the extractor model are
lists of `/`-separated components, HTTP traffic is modelled by explicit
request logs and response lists, and external library primitives
(`hashlib.sha256`, the `re` engine) are parameters of the functions that
use them.
-/

/-- Models Python `str.endswith(suffix)` (`String.endsWith` semantics,
phrased over character lists so that concrete instances evaluate). -/
def strEndsWith (s suff : String) : Bool :=
  suff.toList.isSuffixOf s.toList

/-- Models Python `str.split(":")` (no maxsplit: split at every colon;
the empty string yields `[[]]`, exactly as `"".split(":") == ['']`). -/
def splitOnColon : List Char → List (List Char)
  | [] => [[]]
  | c :: rest =>
    if c = ':' then [] :: splitOnColon rest
    else
      match splitOnColon rest with
      | [] => [[c]]
      | p :: ps => (c :: p) :: ps

/-- From `Registry._parse_image_tag` (`core/registry.py`):
`image, tag = image_ref.split(":")` — the unpacking succeeds only when the
split yields exactly two parts; any other arity raises `ValueError`,
modelled as `none`. -/
def parseImageTag (ref : List Char) : Option (List Char × List Char) :=
  match splitOnColon ref with
  | [image, tag] => some (image, tag)
  | _ => none

/-- Python truthiness of an `Optional[str]`: `None` and `''` are falsy. -/
def pyTruthy : Option String → Bool
  | none => false
  | some s => !(s = "")

/-- Models `re.match(pattern, s)` for metacharacter-free patterns: the
match is anchored at the start of `s` only (Python `re.match` semantics). -/
def litMatch (pat s : String) : Bool :=
  pat.toList.isPrefixOf s.toList

/-- From `Registry._replace_tag` (`core/registry.py`). The guard in the
source is literally `if self._replace_tags_match and self._replace_tags_match:`
(the same attribute twice — `replace_tags_target` is never tested); on a
regex match the function returns `self._replace_tags_target`, which is
`None` when unset. The regex engine is a parameter `reMatch`. -/
def replaceTag (replaceTagsMatch replaceTagsTarget : Option String)
    (reMatch : String → String → Bool) (origTag : String) : Option String :=
  if pyTruthy replaceTagsMatch && pyTruthy replaceTagsMatch then
    if reMatch (replaceTagsMatch.getD "") origTag then replaceTagsTarget
    else some origTag
  else some origTag

/-- One entry of the `manifest_layer_info` list built in
`Registry.process_image`: `{'digest': ..., 'size': ..., 'ext': os.path.splitext(layer)[1]}`. -/
structure LayerInfo where
  digest : String
  size : Nat
  ext : String
deriving DecidableEq

/-- The `config_info` dict built in `Registry.process_image`:
`{'digest': digest, 'size': size}`. -/
structure ConfigInfo where
  digest : String
  size : Nat
deriving DecidableEq

/-- A descriptor object of the schema-2 manifest (`config` or one entry
of `layers`). -/
structure BlobDescriptor where
  mediaType : String
  size : Nat
  digest : String
deriving DecidableEq

/-- The manifest dict assembled by `ImageManifestCreator.create`. -/
structure ImageManifest where
  schemaVersion : Nat
  mediaType : String
  config : BlobDescriptor
  layers : List BlobDescriptor
deriving DecidableEq

/-- From `ImageManifestCreator.create` (`core/image_manifest_creator.py`).
Note the source's `if layer_info['ext'].endswith('gz') or
layer_info['ext'].endswith('gzip')` conditional assigns the very same
string literal `application/vnd.docker.image.rootfs.diff.tar.gzip` in
both branches. -/
def imageManifestCreate (layersInfo : List LayerInfo) (configInfo : ConfigInfo) :
    ImageManifest :=
  { schemaVersion := 2
    mediaType := "application/vnd.docker.distribution.manifest.v2+json"
    config :=
      { mediaType := "application/vnd.docker.container.image.v1+json"
        size := configInfo.size
        digest := configInfo.digest }
    layers := layersInfo.map fun layerInfo =>
      { mediaType :=
          if strEndsWith layerInfo.ext "gz" || strEndsWith layerInfo.ext "gzip" then
            "application/vnd.docker.image.rootfs.diff.tar.gzip"
          else
            "application/vnd.docker.image.rootfs.diff.tar.gzip"
        size := layerInfo.size
        digest := layerInfo.digest } }

/-- The constructor-time state of `Processor.__init__` (`core/processor.py`)
that the claims observe: the worker-pool size, the gzip-layers flag, and
the `stream` value passed on to `registry.Registry(...)`. -/
structure ProcessorInit where
  parallel : Nat
  registryStream : Bool
  gzipLayers : Bool
deriving DecidableEq

/-- From `Processor.__init__`: `if parallel > 1 and stream: ... stream = False`
runs before `self._registry = registry.Registry(..., stream=stream, ...)`. -/
def processorInit (parallel : Nat) (stream gzipLayers : Bool) : ProcessorInit :=
  let stream := if parallel > 1 && stream then false else stream
  { parallel := parallel
    registryStream := stream
    gzipLayers := gzipLayers }

/-- The observable stages of `Processor.process` (`core/processor.py`),
in program order. -/
inductive ProcStep
  | makeTmpDir
  | extractAllStep
  | preProcessContents
  | getManifest
  | dispatchImages
  | removeTmpDir
deriving DecidableEq

/-- From `Processor.process`: the stage trace of one run. The line
`# self._pre_process_contents(tmp_dir_name)` between `extract_all` and
`_get_manifest` is commented out in the source, so no
`preProcessContents` step is emitted for either value of the
gzip-layers flag. -/
def processSteps : Bool → List ProcStep := fun _gzipLayers =>
  [ProcStep.makeTmpDir, ProcStep.extractAllStep, ProcStep.getManifest,
   ProcStep.dispatchImages, ProcStep.removeTmpDir]

/-- The sub-stages of `Processor._pre_process_contents`, in program order. -/
inductive PreStep
  | correctSymlinks
  | compressLayers
  | updateManifestsStep
deriving DecidableEq

/-- From `Processor._pre_process_contents`: `if not self._gzip_layers: return`,
then `_correct_symlinks`, `_compress_layers`, `_update_manifests`. -/
def preProcessSteps (gzipLayers : Bool) : List PreStep :=
  if !gzipLayers then []
  else [PreStep.correctSymlinks, PreStep.compressLayers, PreStep.updateManifestsStep]

/-- One entry of the archive `manifest.json` (keys `Config`, `RepoTags`,
`Layers`). -/
structure ImageEntry where
  config : String
  repoTags : List String
  layers : List String
deriving DecidableEq

/-- The part of a per-image config JSON the recompression stage touches:
`rootfs.diff_ids`. -/
structure ImageConfig where
  diffIds : List String
deriving DecidableEq

/-- The extracted working directory as the recompression stage sees it:
the parsed `manifest.json` and the per-image config files on disk
(path ↦ contents). -/
structure ArchiveFiles where
  manifest : List ImageEntry
  configs : List (String × ImageConfig)
deriving DecidableEq

/-- From `Processor._update_manifests`: `if layer.endswith('.tar'):
manifest_image_section["Layers"][idx] = layer + gzip_ext`. -/
def rewriteLayerPath (gzipExt layer : String) : String :=
  if strEndsWith layer ".tar" then layer ++ gzipExt else layer

/-- From `Processor._update_manifests` (`core/processor.py`). Returns the
resulting on-disk state together with the list of files written. The
source reads each per-image config but the `diff_ids` recomputation and
the `dump_json_file(config_path, image_config)` call are both commented
out, so the configs are returned unchanged and only `manifest.json` is
written (by `_write_manifest`). -/
def updateManifests (gzipExt : String) (fs : ArchiveFiles) :
    ArchiveFiles × List String :=
  ({ manifest := fs.manifest.map fun entry =>
       { entry with layers := entry.layers.map (rewriteLayerPath gzipExt) }
     configs := fs.configs },
   ["manifest.json"])

/-- A filesystem path as its list of `/`-separated components (an
absolute path starts with the empty component, mirroring `"/a/b".split('/')`). -/
abbrev PathComponents := List String

/-- Where `tarfile.extractall` places a member: it joins the target
directory with the member name (`os.path.join(path, tarinfo.name)`)
without inspecting the name for `..` components. -/
def tarTargetPath (targetDir member : PathComponents) : PathComponents :=
  targetDir ++ member

/-- The error kind the specification prescribes for unsafe archives. -/
inductive ArchiveErr
  | traversal
deriving DecidableEq

/-- From `Extractor.extract_all` (`core/extractor.py`): the body is
`with tarfile.open(...) as fh: fh.extractall(target_dir)` — every member
is written at its joined path and no check of any kind is performed, so
the result is always `ok`. -/
def extractAll (targetDir : PathComponents) (members : List PathComponents) :
    Except ArchiveErr (List PathComponents) :=
  .ok (members.map (tarTargetPath targetDir))

/-- Resolves `.` and `..` components of a path (what the path means to
the operating system once the write happens). -/
def normalizePath (p : PathComponents) : PathComponents :=
  p.foldl
    (fun acc comp =>
      if comp = ".." then acc.dropLast
      else if comp = "." then acc
      else acc ++ [comp])
    []

/-- A written path escapes the target directory when its resolved form
does not lie under the resolved target directory. -/
def escapesDir (targetDir path : PathComponents) : Bool :=
  !((normalizePath targetDir).isPrefixOf (normalizePath path))

/-- An HTTP response as `Registry._chunked_upload` reads it: the status
code and the two headers the upload loop consults. -/
structure HttpResponse where
  status : Nat
  location : Option String
  dockerContentDigest : Option String

/-- The kind of HTTP request issued by the chunked-upload loop. -/
inductive ReqKind
  | patch
  | put
deriving DecidableEq

/-- The loop state of `Registry._chunked_upload`: the byte offset
`index`, `length_read`, the current `upload_url`, the bytes absorbed
into the running `sha256`, `total_pushed_size`, the digest read from the
completing PUT response, the client-side `digest` variable, and the logs
of requests issued and progress lines printed. -/
structure UploadState where
  index : Nat
  lengthRead : Nat
  uploadUrl : String
  hashed : List Nat
  totalPushed : Nat
  respDigest : Option String
  digest : Option String
  requests : List ReqKind
  prints : Nat

/-- The `log_and_raise` exits of `Registry._chunked_upload`, tagged by
which check fired. `transport` covers an exception out of `requests`
itself or the `KeyError` on a missing `Docker-Content-Digest` header. -/
inductive UploadErr
  | chunkFailed
  | completeFailed
  | transport
  | sizeMismatch
  | digestMismatch
deriving DecidableEq

/-- From `Registry._read_in_chunks`: repeated `file_object.read(chunk_size)`
until an empty read. `read(0)` returns the empty byte string at once, so
a zero chunk size yields no chunks at all. -/
def readInChunks (chunkSize : Nat) (data : List Nat) : List (List Nat) :=
  if _h : chunkSize = 0 ∨ data = [] then []
  else data.take chunkSize :: readInChunks chunkSize (data.drop chunkSize)
termination_by data.length
decreasing_by
  push_neg at _h
  rw [List.length_drop]
  have h1 := Nat.pos_of_ne_zero _h.1
  have h2 := List.length_pos.mpr _h.2
  omega

/-- The `for chunk in self._read_in_chunks(f)` loop of
`Registry._chunked_upload`. In source order within one iteration:
`length_read` and `offset` advance, the hash absorbs the chunk, the
`Content-*` headers are built, `index = offset`, `last` is set when
`length_read == total_size`, the progress line is printed when streaming,
then either the completing `PUT <upload_url>&digest=<digest>` (expect
201, then read `Docker-Content-Digest`) or a `PATCH upload_url` (expect
202, then adopt a `Location` header as the new `upload_url` when
present), and finally `total_pushed_size` advances. The server is the
list of responses the successive requests receive (an exhausted list
models a transport failure). Errors carry the loop state reached so far
so the request log stays observable. -/
def uploadChunks (sha : List Nat → String) (stream : Bool) (totalSize : Nat) :
    List (List Nat) → UploadState → List HttpResponse →
    Except (UploadErr × UploadState) (UploadState × List HttpResponse)
  | [], st, server => .ok (st, server)
  | chunk :: rest, st, server =>
    let lengthRead := st.lengthRead + chunk.length
    let offset := st.index + chunk.length
    let hashed := st.hashed ++ chunk
    let prints := if stream then st.prints + 1 else st.prints
    let stepped : UploadState :=
      { st with
        index := offset
        lengthRead := lengthRead
        hashed := hashed
        prints := prints }
    match server with
    | [] => .error (.transport, stepped)
    | resp :: serverRest =>
      if lengthRead = totalSize then
        let st1 : UploadState :=
          { stepped with
            digest := some ("sha256:" ++ sha hashed)
            requests := stepped.requests ++ [ReqKind.put] }
        if resp.status ≠ 201 then .error (.completeFailed, st1)
        else
          match resp.dockerContentDigest with
          | none => .error (.transport, st1)
          | some serverDigest =>
            uploadChunks sha stream totalSize rest
              { st1 with
                respDigest := some serverDigest
                totalPushed := st1.totalPushed + chunk.length }
              serverRest
      else
        let st1 : UploadState :=
          { stepped with requests := stepped.requests ++ [ReqKind.patch] }
        if resp.status ≠ 202 then .error (.chunkFailed, st1)
        else
          uploadChunks sha stream totalSize rest
            { st1 with
              uploadUrl := resp.location.getD st1.uploadUrl
              totalPushed := st1.totalPushed + chunk.length }
            serverRest

/-- The chunk size constant of `Registry._read_in_chunks`:
`chunk_size=256 * (1024 ** 2)`. -/
def chunkSizeDefault : Nat := 256 * 1024 ^ 2

/-- The loop state as `Registry._chunked_upload` initializes it. -/
def initUploadState (initialUrl : String) : UploadState :=
  { index := 0
    lengthRead := 0
    uploadUrl := initialUrl
    hashed := []
    totalPushed := 0
    respDigest := none
    digest := none
    requests := []
    prints := 0 }

/-- What one call of `Registry._chunked_upload` yields: the returned
pair `(response_digest, total_pushed_size)` or the error raised, plus
the requests issued and the progress lines printed. -/
structure UploadResult where
  outcome : Except UploadErr (Option String × Nat)
  requests : List ReqKind
  prints : Nat

/-- From `Registry._chunked_upload` (`core/registry.py`): `total_size`
is the file's size (`os.stat(...).st_size`, here the length of `data`),
the chunk loop runs, then the two sanity checks fire in source order —
`total_pushed_size != total_size` and `response_digest != digest` each
`log_and_raise` — and on success `self._stream_print("")` emits one more
line when streaming and `(response_digest, total_pushed_size)` is
returned. `sha` stands for `hashlib.sha256(...).hexdigest()`. -/
def chunkedUpload (sha : List Nat → String) (stream : Bool) (data : List Nat)
    (initialUrl : String) (server : List HttpResponse) : UploadResult :=
  let totalSize := data.length
  match uploadChunks sha stream totalSize (readInChunks chunkSizeDefault data)
      (initUploadState initialUrl) server with
  | .error (e, st) => { outcome := .error e, requests := st.requests, prints := st.prints }
  | .ok (st, _) =>
    if st.totalPushed ≠ totalSize then
      { outcome := .error .sizeMismatch, requests := st.requests, prints := st.prints }
    else if st.respDigest ≠ st.digest then
      { outcome := .error .digestMismatch, requests := st.requests, prints := st.prints }
    else
      { outcome := .ok (st.respDigest, st.totalPushed)
        requests := st.requests
        prints := if stream then st.prints + 1 else st.prints }

/-- A conformant Registry v2 blob store together with counters of the
upload requests it has served: `blobs` maps a digest to the stored
blob's size, and `HEAD /v2/<image>/blobs/<digest>` answers 200 with
`Content-Length` and `Docker-Content-Digest` headers exactly when the
digest is present. -/
structure BlobStore where
  blobs : List (String × Nat)
  postCount : Nat
  patchCount : Nat
  putCount : Nat
deriving DecidableEq

/-- The HEAD probe of `Registry._process_layer`: `some size` models a
200 response carrying the stored size, `none` a miss. -/
def headBlob (s : BlobStore) (digest : String) : Option Nat :=
  (s.blobs.find? fun b => b.1 == digest).map fun b => b.2

/-- From `Registry._process_layer` (`core/registry.py`), run against the
`BlobStore` server model (the whole body runs under the layer's lock, so
calls for the same layer are serialized and can be composed
sequentially). On a HEAD hit the function returns the header values with
no further request; on a miss it issues `POST /v2/<image>/blobs/uploads/`
(one POST), runs the chunked upload — `patches` non-final PATCH chunks
and one completing PUT — and the server then stores the blob. -/
def processLayer (s : BlobStore) (digest : String) (size patches : Nat) :
    BlobStore × String × Nat :=
  match headBlob s digest with
  | some storedSize => (s, digest, storedSize)
  | none =>
    ({ blobs := (digest, size) :: s.blobs
       postCount := s.postCount + 1
       patchCount := s.patchCount + patches
       putCount := s.putCount + 1 },
     digest, size)

/-- A one-image archive with a single `.tar` layer, used to exercise
`updateManifests` on concrete data. -/
def sampleArchive : ArchiveFiles :=
  { manifest := [{ config := "cfg.json", repoTags := ["img:latest"],
                   layers := ["abc/layer.tar"] }]
    configs := [("cfg.json", ⟨["sha256:olddigest"]⟩)] }

theorem splitOnColon_no_colon (l : List Char) (h : ':' ∉ l) :
    splitOnColon l = [l] := by
  induction l with
  | nil => rfl
  | cons c rest ih =>
    have hc : ¬ c = ':' := fun hc => h (by simp [hc])
    have hr : ':' ∉ rest := fun hm => h (List.mem_cons_of_mem c hm)
    simp [splitOnColon, hc, ih hr]

theorem splitOnColon_append (a b : List Char) (ha : ':' ∉ a) :
    splitOnColon (a ++ ':' :: b) = a :: splitOnColon b := by
  induction a with
  | nil => simp [splitOnColon]
  | cons c rest ih =>
    have hc : ¬ c = ':' := fun hc => ha (by simp [hc])
    have hr : ':' ∉ rest := fun hm => ha (List.mem_cons_of_mem c hm)
    simp [splitOnColon, hc, ih hr]

/-- C4 counterexample: a repository reference whose repository part
contains a port separator has three colon-separated parts, so
`_parse_image_tag` raises `ValueError` (modelled `none`) instead of
splitting at the last colon into `("host:5000/img", "tag")`. -/
theorem parse_image_tag_port_counterexample :
    parseImageTag ("host:5000/img:tag".toList) = none ∧
    parseImageTag ("host:5000/img:tag".toList) ≠
      some ("host:5000/img".toList, "tag".toList) := by
  decide

/-- C4 (amended): `_parse_image_tag` splits on every `:` and requires
exactly two parts. An entry with no colon is fatal, an entry with a
single colon parses into `(image, tag)`, and an entry with two or more
colons (for example a registry host with a port) is fatal as well rather
than being split at the last colon. -/
theorem parse_image_tag_amended :
    (∀ s : List Char, ':' ∉ s → parseImageTag s = none) ∧
    (∀ image tag : List Char, ':' ∉ image → ':' ∉ tag →
      parseImageTag (image ++ ':' :: tag) = some (image, tag)) ∧
    (∀ a b c : List Char, ':' ∉ a → ':' ∉ b → ':' ∉ c →
      parseImageTag (a ++ ':' :: b ++ ':' :: c) = none) := by
  refine ⟨fun s hs => ?_, fun image tag hi ht => ?_, fun a b c ha hb hc => ?_⟩
  · simp [parseImageTag, splitOnColon_no_colon s hs]
  · simp [parseImageTag, splitOnColon_append image tag hi, splitOnColon_no_colon tag ht]
  · simp [parseImageTag, splitOnColon_append a _ ha, splitOnColon_append b c hb,
      splitOnColon_no_colon c hc]

/-- C4 witness: the amended statement at the concrete entry `img:latest`. -/
theorem parse_image_tag_amended_witness :
    ':' ∉ "img".toList ∧ ':' ∉ "latest".toList ∧
    parseImageTag ("img".toList ++ ':' :: "latest".toList) =
      some ("img".toList, "latest".toList) :=
  ⟨by decide, by decide, parse_image_tag_amended.2.1 _ _ (by decide) (by decide)⟩

/-- C1: evaluating `ImageManifestCreator.create` at a layer whose
extension is `.tar` (not gzip) still yields mediaType
`application/vnd.docker.image.rootfs.diff.tar.gzip`, because both
branches of the conditional in the source assign the same literal; the
spec requires `application/vnd.docker.image.rootfs.diff.tar` here. -/
theorem manifest_media_type_tar_layer :
    (imageManifestCreate [⟨"sha256:d0", 5, ".tar"⟩] ⟨"sha256:c0", 7⟩).layers =
      [⟨"application/vnd.docker.image.rootfs.diff.tar.gzip", 5, "sha256:d0"⟩] ∧
    strEndsWith ".tar" "gz" = false ∧ strEndsWith ".tar" "gzip" = false ∧
    (imageManifestCreate [⟨"sha256:d1", 6, ".gz"⟩] ⟨"sha256:c0", 7⟩).layers =
      [⟨"application/vnd.docker.image.rootfs.diff.tar.gzip", 6, "sha256:d1"⟩] := by
  decide

/-- C5: evaluating `Registry._replace_tag` at the failing input: with
`replace_tags_match` set but `replace_tags_target` unset (`None`), a
matching tag is replaced by `None` instead of being left unchanged,
because the guard tests `replace_tags_match` twice and never tests
`replace_tags_target`. With both configured the replacement and the
non-matching pass-through behave as specified. -/
theorem replace_tag_unset_target :
    replaceTag (some "v1") none litMatch "v1" = none ∧
    litMatch "v1" "v1" = true ∧
    replaceTag (some "v1") (some "v2") litMatch "v1" = some "v2" ∧
    replaceTag (some "v1.5") (some "v2") litMatch "v1" = some "v1" ∧
    replaceTag none (some "v2") litMatch "v1" = some "v1" := by
  decide

/-- C2 counterexample: even with the gzip-layers flag set,
`Processor.process` emits no recompression stage — the call to
`_pre_process_contents` is commented out in the source. -/
theorem process_no_preprocess_counterexample :
    ProcStep.preProcessContents ∉ processSteps true := by
  decide

/-- C2 (amended): `Processor.process` never runs the layer recompression
stage, for either value of the gzip-layers flag (its invocation between
extraction and dispatch is commented out); the stage's own entry point
`_pre_process_contents`, when invoked directly, performs the symlink
retarget, layer compression and manifest rewrite in that order iff the
flag is set, and nothing otherwise. -/
theorem process_preprocess_amended :
    (∀ g : Bool, ProcStep.preProcessContents ∉ processSteps g) ∧
    preProcessSteps true =
      [PreStep.correctSymlinks, PreStep.compressLayers, PreStep.updateManifestsStep] ∧
    preProcessSteps false = [] := by
  refine ⟨fun g => ?_, by decide, by decide⟩
  cases g <;> decide

/-- C3 counterexample: running `_update_manifests` on a concrete archive
rewrites the manifest's layer path to `.tar.gz` but leaves the per-image
config (its `rootfs.diff_ids`) untouched and never writes the config
file — the recomputation and the `dump_json_file` call are commented out
in the source, contradicting the claim that the config is recomputed and
written back. -/
theorem update_manifests_counterexample :
    (updateManifests ".gz" sampleArchive).1.configs =
      [("cfg.json", ⟨["sha256:olddigest"]⟩)] ∧
    "cfg.json" ∉ (updateManifests ".gz" sampleArchive).2 ∧
    (updateManifests ".gz" sampleArchive).1.manifest =
      [{ config := "cfg.json", repoTags := ["img:latest"],
         layers := ["abc/layer.tar.gz"] }] := by
  decide

/-- C3 (amended): when the recompression stage runs, `_update_manifests`
rewrites every `Layers[i]` ending in `.tar` to the same path with the
gzip extension appended inside the archive manifest and writes
`manifest.json` back, but it does not recompute `rootfs.diff_ids` and
does not write any per-image config: the configs on disk are returned
unchanged and `manifest.json` is the only file written. -/
theorem update_manifests_amended (fs : ArchiveFiles) (gzipExt layer : String)
    (h : strEndsWith layer ".tar" = true) :
    (updateManifests gzipExt fs).1.configs = fs.configs ∧
    (updateManifests gzipExt fs).2 = ["manifest.json"] ∧
    (updateManifests gzipExt fs).1.manifest =
      fs.manifest.map
        (fun e => { e with layers := e.layers.map (rewriteLayerPath gzipExt) }) ∧
    rewriteLayerPath gzipExt layer = layer ++ gzipExt := by
  refine ⟨rfl, rfl, rfl, ?_⟩
  simp [rewriteLayerPath, h]

/-- C3 witness: the amended statement at the sample archive and the
concrete layer path `abc/layer.tar`. -/
theorem update_manifests_amended_witness :
    strEndsWith "abc/layer.tar" ".tar" = true ∧
    rewriteLayerPath ".gz" "abc/layer.tar" = "abc/layer.tar" ++ ".gz" :=
  ⟨by decide,
   (update_manifests_amended sampleArchive ".gz" "abc/layer.tar" (by decide)).2.2.2⟩

/-- C6 counterexample: extracting an archive containing the member
`../evil` into `/tmp/work` succeeds (no `ArchiveError`) and writes the
entry at `/tmp/work/../evil`, which resolves to `/tmp/evil` — outside
the target directory. -/
theorem extract_all_traversal_counterexample :
    extractAll ["", "tmp", "work"] [["..", "evil"]] =
      .ok [["", "tmp", "work", "..", "evil"]] ∧
    escapesDir ["", "tmp", "work"] ["", "tmp", "work", "..", "evil"] = true ∧
    normalizePath ["", "tmp", "work", "..", "evil"] = ["", "tmp", "evil"] :=
  ⟨rfl, by decide, by decide⟩

/-- C6 (amended): `extract_all` performs no path validation at all — it
delegates to `tarfile.extractall`, which writes every member at
`os.path.join(target_dir, member_name)`. A member whose resolved path
escapes the target directory is still extracted, at the escaping
location, and no `ArchiveError` is raised. -/
theorem extract_all_amended (targetDir : PathComponents)
    (members : List PathComponents) (m : PathComponents)
    (hm : m ∈ members)
    (hesc : escapesDir targetDir (tarTargetPath targetDir m) = true) :
    ∃ written, extractAll targetDir members = .ok written ∧
      tarTargetPath targetDir m ∈ written ∧
      escapesDir targetDir (tarTargetPath targetDir m) = true :=
  ⟨members.map (tarTargetPath targetDir), rfl, List.mem_map_of_mem _ hm, hesc⟩

/-- C6 witness: the amended statement at the concrete traversal member. -/
theorem extract_all_amended_witness :
    ∃ written, extractAll ["", "tmp", "work"] [["..", "evil"]] = .ok written ∧
      tarTargetPath ["", "tmp", "work"] ["..", "evil"] ∈ written ∧
      escapesDir ["", "tmp", "work"]
        (tarTargetPath ["", "tmp", "work"] ["..", "evil"]) = true :=
  extract_all_amended ["", "tmp", "work"] [["..", "evil"]] ["..", "evil"]
    (by decide) (by decide)

theorem readInChunks_nil (cs : Nat) : readInChunks cs [] = [] := by
  rw [readInChunks]
  simp

theorem readInChunks_cons (cs : Nat) (data : List Nat) (h0 : cs ≠ 0) (hd : data ≠ []) :
    readInChunks cs data = data.take cs :: readInChunks cs (data.drop cs) := by
  rw [readInChunks, dif_neg]
  push_neg
  exact ⟨h0, hd⟩

theorem readInChunks_flatten_aux (cs : Nat) (h0 : cs ≠ 0) :
    ∀ (n : Nat) (data : List Nat), data.length ≤ n →
      (readInChunks cs data).flatten = data := by
  intro n
  induction n with
  | zero =>
    intro data hlen
    have hd : data = [] := by
      cases data with
      | nil => rfl
      | cons a as => simp at hlen
    subst hd
    simp [readInChunks_nil]
  | succ n ih =>
    intro data hlen
    by_cases hd : data = []
    · subst hd
      simp [readInChunks_nil]
    · rw [readInChunks_cons cs data h0 hd, List.flatten_cons, ih (data.drop cs) ?_]
      · exact List.take_append_drop cs data
      · have h1 : 0 < cs := Nat.pos_of_ne_zero h0
        have h2 : 0 < data.length := List.length_pos.mpr hd
        rw [List.length_drop]
        omega

theorem readInChunks_flatten (cs : Nat) (h0 : cs ≠ 0) (data : List Nat) :
    (readInChunks cs data).flatten = data :=
  readInChunks_flatten_aux cs h0 data.length data le_rfl

theorem readInChunks_ne_nil_aux (cs : Nat) (h0 : cs ≠ 0) :
    ∀ (n : Nat) (data : List Nat), data.length ≤ n →
      ∀ c ∈ readInChunks cs data, c ≠ [] := by
  intro n
  induction n with
  | zero =>
    intro data hlen c hc
    have hd : data = [] := by
      cases data with
      | nil => rfl
      | cons a as => simp at hlen
    subst hd
    rw [readInChunks_nil] at hc
    simp at hc
  | succ n ih =>
    intro data hlen c hc
    by_cases hd : data = []
    · subst hd
      rw [readInChunks_nil] at hc
      simp at hc
    · rw [readInChunks_cons cs data h0 hd] at hc
      rcases List.mem_cons.mp hc with hc | hc
      · subst hc
        rw [Ne, List.take_eq_nil_iff]
        push_neg
        exact ⟨h0, hd⟩
      · refine ih (data.drop cs) ?_ c hc
        have h1 : 0 < cs := Nat.pos_of_ne_zero h0
        have h2 : 0 < data.length := List.length_pos.mpr hd
        rw [List.length_drop]
        omega

theorem readInChunks_ne_nil (cs : Nat) (h0 : cs ≠ 0) (data : List Nat) :
    ∀ c ∈ readInChunks cs data, c ≠ [] :=
  readInChunks_ne_nil_aux cs h0 data.length data le_rfl

theorem readInChunks_eq_nil_iff (cs : Nat) (h0 : cs ≠ 0) (data : List Nat) :
    readInChunks cs data = [] ↔ data = [] := by
  constructor
  · intro h
    by_contra hd
    rw [readInChunks_cons cs data h0 hd] at h
    exact absurd h (by simp)
  · intro h
    subst h
    exact readInChunks_nil cs

theorem uploadChunks_ok_digest (sha : List Nat → String) (stream : Bool)
    (data : List Nat) :
    ∀ (chunks : List (List Nat)) (st : UploadState) (server : List HttpResponse)
      (st' : UploadState) (serverRest : List HttpResponse),
      (∀ c ∈ chunks, c ≠ []) →
      st.hashed ++ chunks.flatten = data →
      st.lengthRead = st.hashed.length →
      uploadChunks sha stream data.length chunks st server = .ok (st', serverRest) →
      st'.digest = if chunks = [] then st.digest
                   else some ("sha256:" ++ sha data) := by
  intro chunks
  induction chunks with
  | nil =>
    intro st server st' serverRest _ _ _ h
    simp only [uploadChunks, Except.ok.injEq, Prod.mk.injEq] at h
    simp [← h.1]
  | cons chunk rest ih =>
    intro st server st' serverRest hne hjoin hlen h
    cases server with
    | nil => simp [uploadChunks] at h
    | cons resp srv =>
      simp only [uploadChunks] at h
      split at h
      case isTrue hlast =>
        split at h
        case isTrue => simp at h
        case isFalse hstatus =>
          split at h
          case h_1 => simp at h
          case h_2 serverDigest heq =>
            have hrest : rest = [] := by
              cases rest with
              | nil => rfl
              | cons c2 r2 =>
                exfalso
                have hc2 : c2 ≠ [] := hne c2 (by simp)
                have hc2len : 0 < c2.length := List.length_pos.mpr hc2
                have hfl := congrArg List.length hjoin
                simp only [List.flatten_cons, List.length_append] at hfl
                omega
            subst hrest
            simp only [uploadChunks, Except.ok.injEq, Prod.mk.injEq] at h
            have hdata : st.hashed ++ chunk = data := by
              simpa [List.flatten_cons] using hjoin
            simp [← h.1, hdata]
      case isFalse hlast =>
        split at h
        case isTrue => simp at h
        case isFalse hstatus =>
          have hrest : rest ≠ [] := by
            intro hr
            subst hr
            apply hlast
            have hfl := congrArg List.length hjoin
            simp only [List.flatten_cons, List.flatten_nil, List.append_nil,
              List.length_append] at hfl
            omega
          have hih := ih _ _ st' serverRest
            (fun c hc => hne c (List.mem_cons_of_mem _ hc)) ?_ ?_ h
          · rw [hih, if_neg hrest]
            simp
          · simpa [List.flatten_cons, List.append_assoc] using hjoin
          · simp [List.length_append, hlen]

theorem uploadChunks_prints_ok (sha : List Nat → String) (totalSize : Nat) :
    ∀ (chunks : List (List Nat)) (st : UploadState) (server : List HttpResponse)
      (st' : UploadState) (serverRest : List HttpResponse),
      uploadChunks sha false totalSize chunks st server = .ok (st', serverRest) →
      st'.prints = st.prints := by
  intro chunks
  induction chunks with
  | nil =>
    intro st server st' serverRest h
    simp only [uploadChunks, Except.ok.injEq, Prod.mk.injEq] at h
    rw [← h.1]
  | cons chunk rest ih =>
    intro st server st' serverRest h
    cases server with
    | nil => simp [uploadChunks] at h
    | cons resp srv =>
      simp only [uploadChunks, Bool.false_eq_true, if_false] at h
      split at h
      · split at h
        · simp at h
        · split at h
          · simp at h
          · have h2 := ih _ _ _ _ h
            simpa using h2
      · split at h
        · simp at h
        · have h2 := ih _ _ _ _ h
          simpa using h2

theorem uploadChunks_prints_error (sha : List Nat → String) (totalSize : Nat) :
    ∀ (chunks : List (List Nat)) (st : UploadState) (server : List HttpResponse)
      (e : UploadErr) (st' : UploadState),
      uploadChunks sha false totalSize chunks st server = .error (e, st') →
      st'.prints = st.prints := by
  intro chunks
  induction chunks with
  | nil =>
    intro st server e st' h
    simp [uploadChunks] at h
  | cons chunk rest ih =>
    intro st server e st' h
    cases server with
    | nil =>
      simp only [uploadChunks, Bool.false_eq_true, if_false, Except.error.injEq,
        Prod.mk.injEq] at h
      rw [← h.2]
    | cons resp srv =>
      simp only [uploadChunks, Bool.false_eq_true, if_false] at h
      split at h
      · split at h
        · simp only [Except.error.injEq, Prod.mk.injEq] at h
          rw [← h.2]
        · split at h
          · simp only [Except.error.injEq, Prod.mk.injEq] at h
            rw [← h.2]
          · have h2 := ih _ _ _ _ h
            simpa using h2
      · split at h
        · simp only [Except.error.injEq, Prod.mk.injEq] at h
          rw [← h.2]
        · have h2 := ih _ _ _ _ h
          simpa using h2

theorem chunkedUpload_no_stream_prints (sha : List Nat → String) (data : List Nat)
    (url : String) (server : List HttpResponse) :
    (chunkedUpload sha false data url server).prints = 0 := by
  cases hu : uploadChunks sha false data.length (readInChunks chunkSizeDefault data)
      (initUploadState url) server with
  | error p =>
    obtain ⟨e, st⟩ := p
    have hst : st.prints = 0 := by
      have h2 := uploadChunks_prints_error sha data.length _ _ _ _ _ hu
      simpa [initUploadState] using h2
    simp only [chunkedUpload, hu]
    exact hst
  | ok p =>
    obtain ⟨st, srvRest⟩ := p
    have hst : st.prints = 0 := by
      have h2 := uploadChunks_prints_ok sha data.length _ _ _ _ _ hu
      simpa [initUploadState] using h2
    simp only [chunkedUpload, hu, Bool.false_eq_true, if_false]
    split
    · exact hst
    · split
      · exact hst
      · exact hst

/-- C7: `_chunked_upload` returns normally only if the total bytes
pushed equal the file's size and the digest returned by the server's
completing PUT (`Docker-Content-Digest`) equals the client-computed
sha256 digest of the file: whenever the call yields `ok (d, n)`, for any
server behavior, `n` is the file size and `d` is the client digest
`sha256:<hexdigest of the whole file>` (`none` only for the empty file,
which sends no completing PUT). Either mismatch takes the
`log_and_raise` exit instead. -/
theorem chunked_upload_postcondition (sha : List Nat → String) (stream : Bool)
    (data : List Nat) (initialUrl : String) (server : List HttpResponse)
    (d : Option String) (n : Nat)
    (h : (chunkedUpload sha stream data initialUrl server).outcome = .ok (d, n)) :
    n = data.length ∧
    d = if data = [] then none else some ("sha256:" ++ sha data) := by
  cases hu : uploadChunks sha stream data.length (readInChunks chunkSizeDefault data)
      (initUploadState initialUrl) server with
  | error p =>
    obtain ⟨e, st⟩ := p
    simp only [chunkedUpload, hu] at h
    simp at h
  | ok p =>
    obtain ⟨st, srvRest⟩ := p
    simp only [chunkedUpload, hu] at h
    split at h
    case isTrue => simp at h
    case isFalse hsize =>
      split at h
      case isTrue => simp at h
      case isFalse hdig =>
        simp only [Except.ok.injEq, Prod.mk.injEq] at h
        obtain ⟨hd, hn⟩ := h
        push_neg at hsize hdig
        have hdigest := uploadChunks_ok_digest sha stream data
          (readInChunks chunkSizeDefault data) (initUploadState initialUrl) server
          st srvRest
          (readInChunks_ne_nil chunkSizeDefault (by decide) data)
          (by simpa [initUploadState] using
            readInChunks_flatten chunkSizeDefault (by decide) data)
          (by simp [initUploadState]) hu
        refine ⟨by rw [← hn, hsize], ?_⟩
        rw [← hd, hdig, hdigest]
        by_cases hdata : data = []
        · simp [hdata, readInChunks_nil, initUploadState]
        · have hch : readInChunks chunkSizeDefault data ≠ [] := by
            rw [Ne, readInChunks_eq_nil_iff chunkSizeDefault (by decide)]
            exact hdata
          rw [if_neg hch, if_neg hdata]

/-- C7 witness: a one-chunk upload of the byte string `[7]` against a
well-behaved server, exercising the postcondition at a concrete input. -/
theorem chunked_upload_postcondition_witness :
    (chunkedUpload (fun _ => "h") false [7] "u"
        [⟨201, none, some "sha256:h"⟩]).outcome = .ok (some "sha256:h", 1) ∧
    ((1 : Nat) = ([7] : List Nat).length ∧
      (some "sha256:h" : Option String) =
        if ([7] : List Nat) = [] then none
        else some ("sha256:" ++ (fun _ : List Nat => "h") [7])) := by
  have hchunks : readInChunks chunkSizeDefault [7] = [[7]] := by
    rw [readInChunks_cons chunkSizeDefault [7] (by decide) (by decide),
      List.take_of_length_le (by decide : ([7] : List Nat).length ≤ chunkSizeDefault),
      List.drop_eq_nil_of_le (by decide : ([7] : List Nat).length ≤ chunkSizeDefault),
      readInChunks_nil]
  have hrun : (chunkedUpload (fun _ => "h") false [7] "u"
      [⟨201, none, some "sha256:h"⟩]).outcome = .ok (some "sha256:h", 1) := by
    simp [chunkedUpload, hchunks, uploadChunks, initUploadState]
  exact ⟨hrun, chunked_upload_postcondition _ _ _ _ _ _ _ hrun⟩

/-- C10: for a zero-byte input file the chunk generator yields nothing,
so `_chunked_upload` issues no HTTP request at all (no PATCH and no
completing PUT — the upload session opened by the preceding POST is
never completed) and returns `(None, 0)` without raising: both final
sanity checks pass vacuously (`0 == 0` and `None == None`). -/
theorem chunked_upload_empty_file (sha : List Nat → String) (stream : Bool)
    (url : String) (server : List HttpResponse) :
    (chunkedUpload sha stream [] url server).outcome = .ok (none, 0) ∧
    (chunkedUpload sha stream [] url server).requests = [] := by
  have hchunks : readInChunks chunkSizeDefault ([] : List Nat) = [] :=
    readInChunks_nil _
  constructor <;>
    simp [chunkedUpload, hchunks, uploadChunks, initUploadState]

/-- C9: `Processor.__init__` forces `stream` to `False` (logging a
warning) whenever `parallel > 1` and `stream` was requested, before the
registry client is constructed, so the registry the workers share never
streams per-chunk progress (`_stream_print` prints nothing during any
chunked upload); with `parallel == 1` the `stream` setting reaches the
registry unchanged. -/
theorem processor_init_stream_force (parallel : Nat) (stream gzipLayers : Bool) :
    (parallel > 1 → stream = true →
      (processorInit parallel stream gzipLayers).registryStream = false) ∧
    (parallel = 1 →
      (processorInit parallel stream gzipLayers).registryStream = stream) ∧
    (parallel > 1 → ∀ (sha : List Nat → String) (data : List Nat) (url : String)
        (server : List HttpResponse),
      (chunkedUpload sha (processorInit parallel stream gzipLayers).registryStream
          data url server).prints = 0) := by
  have hreg : parallel > 1 →
      (processorInit parallel stream gzipLayers).registryStream = false := by
    intro hp
    have hd : decide (parallel > 1) = true := decide_eq_true hp
    cases stream <;> simp [processorInit, hd]
  refine ⟨fun hp _ => hreg hp, fun hp => ?_, fun hp sha data url server => ?_⟩
  · subst hp
    simp [processorInit]
  · rw [hreg hp]
    exact chunkedUpload_no_stream_prints sha data url server

/-- C9 witness: the forcing at `parallel = 4, stream = true`, the
pass-through at `parallel = 1`, and the absence of progress output for
an upload run with the forced setting. -/
theorem processor_init_stream_force_witness :
    ((4 : Nat) > 1 ∧ (processorInit 4 true false).registryStream = false) ∧
    (processorInit 1 true false).registryStream = true ∧
    (chunkedUpload (fun _ => "h") (processorInit 4 true false).registryStream
        [] "u" []).prints = 0 :=
  ⟨⟨by decide, (processor_init_stream_force 4 true false).1 (by decide) rfl⟩,
   (processor_init_stream_force 1 true false).2.1 rfl,
   (processor_init_stream_force 4 true false).2.2 (by decide) (fun _ => "h") [] "u" []⟩

/-- C8: when the HEAD probe of `_process_layer` answers 200, the
function returns the server's `Docker-Content-Digest` and
`Content-Length` header values and issues no POST, PATCH or PUT (the
store — counters included — is unchanged); consequently, when two
ImageEntries share a layer, the two (lock-serialized) calls for it issue
exactly one `POST /blobs/uploads/` in total: the first uploads and the
second observes the HEAD hit and short-circuits. -/
theorem process_layer_head_hit_and_dedup :
    (∀ (s : BlobStore) (digest : String) (size patches storedSize : Nat),
      headBlob s digest = some storedSize →
      processLayer s digest size patches = (s, digest, storedSize)) ∧
    (∀ (s : BlobStore) (digest : String) (size p1 p2 : Nat),
      headBlob s digest = none →
      (processLayer s digest size p1).1.postCount = s.postCount + 1 ∧
      processLayer (processLayer s digest size p1).1 digest size p2 =
        ((processLayer s digest size p1).1, digest, size)) := by
  have hit : ∀ (s : BlobStore) (digest : String) (size patches storedSize : Nat),
      headBlob s digest = some storedSize →
      processLayer s digest size patches = (s, digest, storedSize) := by
    intro s digest size patches storedSize h
    simp [processLayer, h]
  refine ⟨hit, fun s digest size p1 p2 h => ?_⟩
  have h1 : (processLayer s digest size p1).1 =
      { blobs := (digest, size) :: s.blobs
        postCount := s.postCount + 1
        patchCount := s.patchCount + p1
        putCount := s.putCount + 1 } := by
    simp [processLayer, h]
  have h2 : headBlob (processLayer s digest size p1).1 digest = some size := by
    rw [h1]
    simp [headBlob, List.find?_cons]
  exact ⟨by rw [h1], hit _ _ _ _ _ h2⟩

/-- C8 witness: a HEAD hit on a store already holding the blob, and the
dedup property starting from an empty store. -/
theorem process_layer_head_hit_and_dedup_witness :
    headBlob ⟨[("sha256:b", 9)], 0, 0, 0⟩ "sha256:b" = some 9 ∧
    processLayer ⟨[("sha256:b", 9)], 0, 0, 0⟩ "sha256:b" 4 2 =
      (⟨[("sha256:b", 9)], 0, 0, 0⟩, "sha256:b", 9) ∧
    headBlob ⟨[], 0, 0, 0⟩ "sha256:a" = none ∧
    (processLayer ⟨[], 0, 0, 0⟩ "sha256:a" 3 2).1.postCount = 0 + 1 ∧
    processLayer (processLayer ⟨[], 0, 0, 0⟩ "sha256:a" 3 2).1 "sha256:a" 3 2 =
      ((processLayer ⟨[], 0, 0, 0⟩ "sha256:a" 3 2).1, "sha256:a", 3) :=
  ⟨by decide,
   process_layer_head_hit_and_dedup.1 _ _ 4 2 _ (by decide),
   by decide,
   (process_layer_head_hit_and_dedup.2 _ _ _ 2 2 (by decide)).1,
   (process_layer_head_hit_and_dedup.2 _ _ _ 2 2 (by decide)).2⟩
